import Mathlib

/-!
Formal model of the option/futures P&L simulator `op/app.py`.

Monetary quantities handled by the settlement-payoff and aggregation code
are modelled as exact rationals (`ℚ`); the Black-Scholes valuation code is
modelled over the reals (`ℝ`).  Fallible paths (file parsing, the network
quote fetch, the `NameError` path of `black_scholes_model`) are modelled
with `Option`.  Cells that hold the empty string `""` in the Python data
table (strike / entry price of non-option rows) are modelled as `none`.
-/

namespace OpApp

/-- Constant `MULTIPLIER_MICRO = 10.0` (app.py line 112). -/
def MULTIPLIER_MICRO : ℚ := 10

/-- Constant `MULTIPLIER_OPTION = 50.0` (app.py line 113). -/
def MULTIPLIER_OPTION : ℚ := 50

/-- Constant `PRICE_STEP = 100.0` (app.py line 114). -/
def PRICE_STEP : ℚ := 100

/-- One position record of the in-memory table (columns 策略, 商品,
選擇權類型, 履約價, 方向, 口數, 成交價).  `strike`/`entry` are `none`
when the stored cell is the empty string. -/
structure Row where
  strategy : String
  prod : String
  opt_type : String
  strike : Option ℚ
  direction : String
  lots : ℚ
  entry : Option ℚ
deriving DecidableEq

/-- Embedding of `profit_for_row_at_price` (app.py lines 607-630). -/
def profit_for_row_at_price (row : Row) (price : ℚ) : ℚ :=
  let lots := row.lots
  let entry := row.entry.getD 0
  let multiplier := if row.prod = "微台" then MULTIPLIER_MICRO else MULTIPLIER_OPTION
  if row.prod = "微台" then
    if row.direction = "買進" then (price - entry) * lots * multiplier
    else (entry - price) * lots * multiplier
  else
    let strike := row.strike.getD 0
    let intrinsic :=
      if row.opt_type = "買權" then max 0 (price - strike)
      else if row.opt_type = "賣權" then max 0 (strike - price)
      else 0
    if row.direction = "買進" then (intrinsic - entry) * lots * multiplier
    else (entry - intrinsic) * lots * multiplier

/-- Embedding of `np.arange(-PRICE_RANGE, PRICE_RANGE + 1e-6, PRICE_STEP)`
(app.py line 604): the arithmetic progression starting at `-priceRange`
with step `PRICE_STEP` and `⌈(stop − start) / step⌉` elements. -/
def sweep_offsets (priceRange : ℚ) : List ℚ :=
  (List.range
      (Int.toNat (Int.ceil ((priceRange + 1 / 1000000 - -priceRange) / PRICE_STEP)))).map
    (fun k : ℕ => -priceRange + PRICE_STEP * (k : ℚ))

/-- Embedding of `prices = [center + float(off) for off in offsets]`
(app.py line 605). -/
def sweep_prices (center priceRange : ℚ) : List ℚ :=
  (sweep_offsets priceRange).map (fun off => center + off)

/-- Embedding of the per-bucket aggregation loop (app.py lines 632-639):
at each sweep price, sum `profit_for_row_at_price` over the rows whose
策略 column equals the given bucket label. -/
def bucket_curve (rows : List Row) (strat : String) (center priceRange : ℚ) : List ℚ :=
  (sweep_prices center priceRange).map
    (fun p =>
      ((rows.filter (fun row => row.strategy = strat)).map
        (fun row => profit_for_row_at_price row p)).sum)

/-- The `a_profits` curve (bucket 策略 A). -/
def a_profits (rows : List Row) (center priceRange : ℚ) : List ℚ :=
  bucket_curve rows "策略 A" center priceRange

/-- The `b_profits` curve (bucket 策略 B). -/
def b_profits (rows : List Row) (center priceRange : ℚ) : List ℚ :=
  bucket_curve rows "策略 B" center priceRange

/-- Spec glossary definition of intrinsic value: `max(0, spot − strike)`
for a call (買權), `max(0, strike − spot)` for a put (賣權). -/
def intrinsic_spec (optType : String) (strike spot : ℚ) : ℚ :=
  if optType = "買權" then max 0 (spot - strike)
  else if optType = "賣權" then max 0 (strike - spot)
  else 0

/-- Spec sign of a direction: `+1` for 買進 (buy), `-1` for 賣出 (sell). -/
def sign_spec (direction : String) : ℚ := if direction = "買進" then 1 else -1

/-- Spec payoff before the contract multiplier:
`(intrinsic-or-spot-linear payoff − entry) × sign(direction) × quantity`. -/
def payoff_before_multiplier (row : Row) (price : ℚ) : ℚ :=
  let entry := row.entry.getD 0
  let strike := row.strike.getD 0
  let term :=
    if row.prod = "微台" then price else intrinsic_spec row.opt_type strike price
  (term - entry) * sign_spec row.direction * row.lots

/-- A concrete sample position used by witnesses. -/
def sample_row : Row :=
  { strategy := "策略 A", prod := "選擇權", opt_type := "買權", strike := some 10000
    direction := "買進", lots := 1, entry := some 100 }

/-- Unfolding helper: the sweep once its `arange` element count is known. -/
lemma sweep_offsets_eq_range (priceRange : ℚ) (n : ℕ)
    (h : (Int.ceil ((priceRange + 1 / 1000000 - -priceRange) / PRICE_STEP)).toNat = n) :
    sweep_offsets priceRange =
      (List.range n).map (fun k : ℕ => -priceRange + PRICE_STEP * (k : ℚ)) := by
  rw [sweep_offsets, h]

/-- Factorisation of the payoff through the contract multiplier chosen on
line 613: every payoff is the spec's pre-multiplier payoff times the
product's multiplier constant. -/
lemma profit_factor (row : Row) (price : ℚ) :
    profit_for_row_at_price row price =
      payoff_before_multiplier row price *
        (if row.prod = "微台" then MULTIPLIER_MICRO else MULTIPLIER_OPTION) := by
  by_cases hp : row.prod = "微台" <;> by_cases hd : row.direction = "買進" <;>
    simp [profit_for_row_at_price, payoff_before_multiplier, sign_spec, intrinsic_spec,
      hp, hd] <;>
    ring

/-- C1: for a well-formed position row (direction 買進/賣出, product
微台/選擇權, a numeric entry price, and — for option rows — a call/put
type and a numeric strike), the payoff at a price equals
(payoff term − entry) × sign(direction) × quantity × contract multiplier,
the payoff term being the price itself for 微台 and the intrinsic value
at that price for 選擇權. -/
theorem C1_per_position_payoff (row : Row) (price e k : ℚ)
    (hdir : row.direction = "買進" ∨ row.direction = "賣出")
    (hprod : row.prod = "微台" ∨ row.prod = "選擇權")
    (hentry : row.entry = some e)
    (hopt : row.prod = "選擇權" →
      (row.opt_type = "買權" ∨ row.opt_type = "賣權") ∧ row.strike = some k) :
    profit_for_row_at_price row price =
      ((if row.prod = "微台" then price else intrinsic_spec row.opt_type k price) - e) *
        sign_spec row.direction * row.lots *
        (if row.prod = "微台" then MULTIPLIER_MICRO else MULTIPLIER_OPTION) := by
  rcases hprod with hp | hp
  · rcases hdir with hd | hd <;>
      simp [profit_for_row_at_price, sign_spec, hp, hd, hentry] <;> ring
  · obtain ⟨hot, hk⟩ := hopt hp
    rcases hdir with hd | hd <;> rcases hot with ho | ho <;>
      simp [profit_for_row_at_price, sign_spec, intrinsic_spec, hp, hd, ho, hk, hentry] <;>
      ring

/-- C1 witness: the sample call position evaluated at price 10200. -/
theorem C1_per_position_payoff_witness :
    profit_for_row_at_price sample_row 10200 =
      ((if sample_row.prod = "微台" then (10200 : ℚ)
        else intrinsic_spec sample_row.opt_type 10000 10200) - 100) *
        sign_spec sample_row.direction * sample_row.lots *
        (if sample_row.prod = "微台" then MULTIPLIER_MICRO else MULTIPLIER_OPTION) :=
  C1_per_position_payoff sample_row 10200 100 10000 (Or.inl rfl) (Or.inr rfl) rfl
    (fun _ => ⟨Or.inl rfl, rfl⟩)

/-- C5: the contract multiplier applied in the payoff computation is the
constant 10 for 微台 and the constant 50 for 選擇權, and no value other
than these two is ever used. -/
theorem C5_contract_multiplier (row : Row) (price : ℚ) :
    MULTIPLIER_MICRO = 10 ∧ MULTIPLIER_OPTION = 50 ∧
    (row.prod = "微台" →
      profit_for_row_at_price row price =
        payoff_before_multiplier row price * MULTIPLIER_MICRO) ∧
    (row.prod = "選擇權" →
      profit_for_row_at_price row price =
        payoff_before_multiplier row price * MULTIPLIER_OPTION) ∧
    (profit_for_row_at_price row price =
        payoff_before_multiplier row price * MULTIPLIER_MICRO ∨
      profit_for_row_at_price row price =
        payoff_before_multiplier row price * MULTIPLIER_OPTION) := by
  have h := profit_factor row price
  by_cases hp : row.prod = "微台"
  · rw [if_pos hp] at h
    exact ⟨rfl, rfl, fun _ => h, fun ho => absurd hp (by rw [ho]; decide), Or.inl h⟩
  · rw [if_neg hp] at h
    exact ⟨rfl, rfl, fun hm => absurd hm hp, fun _ => h, Or.inr h⟩

/-- C5 witness: the sample option position uses the multiplier 50. -/
theorem C5_contract_multiplier_witness :
    profit_for_row_at_price sample_row 10200 =
      payoff_before_multiplier sample_row 10200 * MULTIPLIER_OPTION :=
  (C5_contract_multiplier sample_row 10200).2.2.2.1 rfl

/-- Element count of the sweep when the range is a positive multiple of 50:
`⌈(2·(50·m) + 1e-6) / 100⌉ = m + 1`. -/
lemma sweep_count_of_mult50 (m : ℕ) :
    (Int.ceil (((50 * (m : ℚ)) + 1 / 1000000 - -(50 * (m : ℚ))) / PRICE_STEP)).toNat
      = m + 1 := by
  have harg : ((50 * (m : ℚ)) + 1 / 1000000 - -(50 * (m : ℚ))) / PRICE_STEP
      = 1 / 100000000 + ((m : ℤ) : ℚ) := by
    simp only [PRICE_STEP]
    push_cast
    ring
  have hceil : Int.ceil ((1 : ℚ) / 100000000) = 1 := by
    norm_num [Int.ceil_eq_iff]
  rw [harg, Int.ceil_add_int, hceil]
  omega

/-- C3 (amended): when the simulated range is a positive multiple of 50
(in particular for every value reachable with the widget's step of 100),
the sweep is the arithmetic progression from `center − range` to
`center + range` with step 100, and the two output curves list, at each
sweep price, the sum of `profit_for_row_at_price` over exactly the rows
of bucket 策略 A resp. 策略 B. -/
theorem C3_sweep_aggregation (rows : List Row) (center : ℚ) (m : ℕ) (priceRange : ℚ)
    (hne : rows ≠ []) (hm : 1 ≤ m) (hR : priceRange = 50 * m) :
    sweep_prices center priceRange =
      (List.range (m + 1)).map (fun k : ℕ => center - priceRange + PRICE_STEP * (k : ℚ)) ∧
    (sweep_prices center priceRange).head? = some (center - priceRange) ∧
    (sweep_prices center priceRange).getLast? = some (center + priceRange) ∧
    a_profits rows center priceRange =
      (sweep_prices center priceRange).map (fun p =>
        ((rows.filter (fun row => row.strategy = "策略 A")).map
          (fun row => profit_for_row_at_price row p)).sum) ∧
    b_profits rows center priceRange =
      (sweep_prices center priceRange).map (fun p =>
        ((rows.filter (fun row => row.strategy = "策略 B")).map
          (fun row => profit_for_row_at_price row p)).sum) := by
  have hsweep : sweep_prices center priceRange =
      (List.range (m + 1)).map (fun k : ℕ => center - priceRange + PRICE_STEP * (k : ℚ)) := by
    rw [sweep_prices, sweep_offsets_eq_range priceRange (m + 1) (by rw [hR]; exact sweep_count_of_mult50 m),
      List.map_map]
    apply List.map_congr_left
    intro k _
    simp only [Function.comp]
    ring
  refine ⟨hsweep, ?_, ?_, rfl, rfl⟩
  · rw [hsweep, List.range_succ_eq_map]
    simp
  · rw [hsweep, List.range_succ, List.map_append]
    simp only [List.map_cons, List.map_nil, List.getLast?_concat]
    have : center - priceRange + PRICE_STEP * (m : ℚ) = center + priceRange := by
      rw [hR]
      simp only [PRICE_STEP]
      ring
    rw [this]

/-- C3 counterexample: with range 130 (admissible for the range widget,
whose only constraint on typed values is `min_value=100`) the produced
sweep is `[c − 130, c − 30, c + 70]`: it stops short of `c + 130` and is
not symmetric around the center, refuting the claim for arbitrary ranges. -/
theorem C3_sweep_aggregation_counterexample :
    sweep_prices 0 130 = [-130, -30, 70] ∧ ((0 : ℚ) + 130) ∉ sweep_prices 0 130 := by
  have h : (Int.ceil ((130 + 1 / 1000000 - -(130 : ℚ)) / PRICE_STEP)).toNat = 3 := by
    have h2 : Int.ceil ((130 + 1 / 1000000 - -(130 : ℚ)) / PRICE_STEP) = 3 := by
      norm_num [PRICE_STEP, Int.ceil_eq_iff]
    rw [h2]
    rfl
  have he : sweep_prices 0 130 = [-130, -30, 70] := by
    rw [sweep_prices, sweep_offsets_eq_range 130 3 h]
    norm_num [List.range_succ, PRICE_STEP]
  refine ⟨he, ?_⟩
  rw [he]
  norm_num

/-- C3 witness: range 100 (= 50·2) sweeps `[-100, 0, 100]` around center 0. -/
theorem C3_sweep_aggregation_witness : sweep_prices 0 100 = [(-100 : ℚ), 0, 100] := by
  have h := (C3_sweep_aggregation [sample_row] 0 2 100 (by simp) (by norm_num)
    (by norm_num)).1
  rw [h]
  norm_num [List.range_succ, PRICE_STEP]

/-- C10: flipping only the direction field between 買進 and 賣出 exactly
negates the payoff, for every position row and every price. -/
theorem C10_direction_antisymmetry (row : Row) (price : ℚ) :
    profit_for_row_at_price { row with direction := "賣出" } price =
      - profit_for_row_at_price { row with direction := "買進" } price := by
  by_cases hp : row.prod = "微台" <;>
    simp [profit_for_row_at_price, hp] <;> ring

/-- Outcome of opening and JSON-parsing the positions file, as seen by
`load_positions` (app.py lines 187-229): the file may be absent, fail to
parse, hold a bare list of records (legacy format), hold a dict with a
`positions` key, or hold any other JSON value. -/
inductive FileContent where
  | missing
  | unparsable
  | list_data (positions : List Row)
  | dict_data (center : Option ℚ) (days : ℚ) (rate : ℚ) (positions : List Row)
  | other_data
deriving DecidableEq

/-- Column coercion applied by `load_positions` (app.py line 216):
`df["口數"].fillna(0).astype(int)` truncates the lot count toward zero. -/
def coerce_row (row : Row) : Row :=
  { row with lots := ((row.lots.num / (row.lots.den : ℤ) : ℤ) : ℚ) }

/-- Embedding of `load_positions` (app.py lines 187-229).  The quadruple
`(None, None, None, None)` returned on a missing file, a parse error, an
unrecognised top-level format, or a coercion failure (a non-numeric
成交價 cell makes `astype(float)` raise, caught by the `except`) is
modelled as `none`; a successful load is `some` of the coerced records,
the stored center price, and the stored Black-Scholes parameters (legacy
list files yield no center and the defaults 6 and 0.015). -/
def load_positions : FileContent → Option (List Row × Option ℚ × ℚ × ℚ)
  | .missing => none
  | .unparsable => none
  | .other_data => none
  | .list_data ps =>
      if ps.all (fun row => row.entry.isSome) then
        some (ps.map coerce_row, none, 6, 3 / 200)
      else none
  | .dict_data c t r ps =>
      if ps.all (fun row => row.entry.isSome) then
        some (ps.map coerce_row, c, t, r)
      else none

/-- Embedding of `save_positions` (app.py lines 231-244): on a successful
write it stores the dict `{center_price, days_to_expiry, risk_free_rate,
positions}` wholesale and returns `True`; if writing raises, the error is
caught and it returns `False`.  The boolean `write_ok` models whether the
file write succeeds. -/
def save_positions (write_ok : Bool) (ps : List Row) (c : Option ℚ) (t r : ℚ) :
    Bool × Option FileContent :=
  if write_ok then (true, some (.dict_data c t r ps)) else (false, none)

/-- Result of the `yfinance` quote lookup in `get_tse_index_price`
(app.py lines 117-136): either the fetch raises, or it yields the `info`
dict's `regularMarketPrice` and `regularMarketPreviousClose` entries. -/
inductive QuoteFetch where
  | fetch_fail
  | fetched (rmp : Option ℚ) (prev : Option ℚ)
deriving DecidableEq

/-- The price after the fallback on lines 125-126: `regularMarketPrice`,
replaced by `regularMarketPreviousClose` when it is `None` or `0`. -/
def effective_quote (rmp prev : Option ℚ) : Option ℚ :=
  match rmp with
  | none => prev
  | some p => if p = 0 then prev else some p

/-- Embedding of `get_tse_index_price` (app.py lines 117-136): `None` on a
fetch failure, and otherwise the effective price exactly when it is truthy
and above 1000. -/
def get_tse_index_price : QuoteFetch → Option ℚ
  | .fetch_fail => none
  | .fetched rmp prev =>
      match effective_quote rmp prev with
      | some p => if 1000 < p then some p else none
      | none => none

/-- Truncation toward zero is the identity on integer-valued rationals. -/
lemma coerce_row_eq_self (row : Row) (n : ℤ) (h : row.lots = (n : ℚ)) :
    coerce_row row = row := by
  have hnum : (row.lots).num = n := by rw [h, Rat.num_intCast]
  have hden : ((row.lots).den : ℤ) = 1 := by rw [h, Rat.den_intCast]; simp
  rw [coerce_row, hnum, hden]
  cases row
  simp_all

/-- The lot-count coercion is the identity on lists of integer-lot rows. -/
lemma map_coerce_eq_self (ps : List Row)
    (h : ∀ row ∈ ps, ∃ n : ℤ, row.lots = (n : ℚ)) : ps.map coerce_row = ps := by
  induction ps with
  | nil => rfl
  | cons a l ih =>
      obtain ⟨n, hn⟩ := h a (List.mem_cons_self a l)
      rw [List.map_cons, coerce_row_eq_self a n hn,
        ih (fun row hrow => h row (List.mem_cons_of_mem a hrow))]

/-- C6: saving then loading round-trips the store.  For every position
list whose 口數 values are integers and whose 成交價 cells are numeric,
and for every center price, days-to-expiry and risk-free rate, a
successful `save_positions` writes the dict format wholesale and
`load_positions` on that file returns exactly the saved records, center
price and Black-Scholes parameters. -/
theorem C6_save_load_round_trip (ps : List Row) (c : Option ℚ) (t r : ℚ)
    (h : ∀ row ∈ ps, (∃ n : ℤ, row.lots = (n : ℚ)) ∧ row.entry.isSome) :
    save_positions true ps c t r = (true, some (.dict_data c t r ps)) ∧
    load_positions (.dict_data c t r ps) = some (ps, c, t, r) := by
  refine ⟨rfl, ?_⟩
  have hall : ps.all (fun row => row.entry.isSome) = true :=
    List.all_eq_true.mpr (fun row hrow => (h row hrow).2)
  have hmap : ps.map coerce_row = ps :=
    map_coerce_eq_self ps (fun row hrow => (h row hrow).1)
  rw [load_positions, if_pos hall, hmap]

/-- C6 witness: a one-row store with integer lot count round-trips. -/
theorem C6_save_load_round_trip_witness :
    load_positions (.dict_data (some 10000) 6 (3 / 200) [sample_row]) =
      some ([sample_row], some 10000, 6, 3 / 200) :=
  (C6_save_load_round_trip [sample_row] (some 10000) 6 (3 / 200)
    (by intro row hrow; rw [List.mem_singleton] at hrow; subst hrow
        exact ⟨⟨1, rfl⟩, rfl⟩)).2

/-- C7: failures are absorbed, never propagated.  `load_positions` yields
the all-`None` quadruple on a missing, unparsable or unrecognised file;
`save_positions` returns `False` when the write fails and `True` when it
succeeds; `get_tse_index_price` yields `None` on a fetch failure and
whenever the fetched quote holds no valid price above 1000. -/
theorem C7_failures_absorbed :
    load_positions .missing = none ∧
    load_positions .unparsable = none ∧
    load_positions .other_data = none ∧
    (∀ (ps : List Row) (c : Option ℚ) (t r : ℚ),
      save_positions false ps c t r = (false, none) ∧
      (save_positions true ps c t r).1 = true) ∧
    get_tse_index_price .fetch_fail = none ∧
    (∀ rmp prev : Option ℚ,
      (¬ ∃ p, effective_quote rmp prev = some p ∧ 1000 < p) →
      get_tse_index_price (.fetched rmp prev) = none) := by
  refine ⟨rfl, rfl, rfl, fun ps c t r => ⟨rfl, rfl⟩, rfl, fun rmp prev hno => ?_⟩
  rw [get_tse_index_price]
  cases hq : effective_quote rmp prev with
  | none => rfl
  | some p =>
      show (if 1000 < p then some p else none) = none
      rw [if_neg]
      intro hgt
      exact hno ⟨p, hq, hgt⟩

/-- C7 witness: a fetched quote of 500 (below the 1000 sanity bound) is
rejected. -/
theorem C7_failures_absorbed_witness :
    get_tse_index_price (.fetched (some 500) none) = none := by
  refine C7_failures_absorbed.2.2.2.2.2 (some 500) none ?_
  rintro ⟨p, hp, hgt⟩
  rw [effective_quote] at hp
  norm_num at hp
  subst hp
  norm_num at hgt

/-- Standard normal cumulative distribution function, modelling
`scipy.stats.norm.cdf`: `Φ(x) = (∫_{-∞}^{x} e^{-t²/2} dt) / √(2π)`. -/
noncomputable def normalCdf (x : ℝ) : ℝ :=
  (∫ t in Set.Iic x, Real.exp (-(t ^ 2) / 2)) / Real.sqrt (2 * Real.pi)

/-- Embedding of `safe_log` (app.py lines 139-140):
`np.log(np.maximum(x, 1e-10))`. -/
noncomputable def safe_log (x : ℝ) : ℝ := Real.log (max x (1 / 10 ^ 10))

/-- Embedding of `safe_sqrt` (app.py lines 141-142):
`np.sqrt(np.maximum(x, 1e-10))`. -/
noncomputable def safe_sqrt (x : ℝ) : ℝ := Real.sqrt (max x (1 / 10 ^ 10))

/-- `d1` as computed on app.py line 162 (on the already-clamped spot and
strike). -/
noncomputable def bs_d1 (S K T_years r sigma : ℝ) : ℝ :=
  (safe_log (S / K) + (r + 1 / 2 * sigma ^ 2) * T_years) / (sigma * safe_sqrt T_years)

/-- `d2 = d1 - sigma * safe_sqrt(T_years)` (app.py line 163). -/
noncomputable def bs_d2 (S K T_years r sigma : ℝ) : ℝ :=
  bs_d1 S K T_years r sigma - sigma * safe_sqrt T_years

/-- The call branch price `max(0, S*N(d1) - K*exp(-r T)*N(d2))`
(app.py lines 172-173 and 180). -/
noncomputable def bs_call_price (S K T_years r sigma : ℝ) : ℝ :=
  max 0 (S * normalCdf (bs_d1 S K T_years r sigma) -
    K * Real.exp (-r * T_years) * normalCdf (bs_d2 S K T_years r sigma))

/-- The put branch price `max(0, K*exp(-r T)*N(-d2) - S*N(-d1))`
(app.py lines 176-177 and 180). -/
noncomputable def bs_put_price (S K T_years r sigma : ℝ) : ℝ :=
  max 0 (K * Real.exp (-r * T_years) * normalCdf (-bs_d2 S K T_years r sigma) -
    S * normalCdf (-bs_d1 S K T_years r sigma))

/-- Embedding of `black_scholes_model` (app.py lines 144-184).  The
near-expiry/zero-volatility branch (lines 149-156) returns the intrinsic
value twice with a zero time value; the main branch clamps the spot and
strike up to `1e-6` (lines 159-160) and prices with the `bs_call_price` /
`bs_put_price` formulas.  An option type that is neither 買權 nor 賣權
leaves the Python local `intrinsic` unassigned in the main branch, so the
`time_value` line raises `NameError`: that path is modelled as `none`. -/
noncomputable def black_scholes_model (S K T_years r sigma : ℝ) (optType : String) :
    Option (ℝ × ℝ × ℝ) :=
  if T_years ≤ 1 / 1000000 ∨ sigma ≤ 1 / 1000000 then
    let intrinsic : ℝ :=
      if optType = "買權" then max 0 (S - K)
      else if optType = "賣權" then max 0 (K - S)
      else 0
    some (intrinsic, intrinsic, 0)
  else
    let S2 := max (1 / 1000000) S
    let K2 := max (1 / 1000000) K
    if optType = "買權" then
      let price := bs_call_price S2 K2 T_years r sigma
      let intrinsic := max 0 (S2 - K2)
      some (price, intrinsic, max 0 (price - intrinsic))
    else if optType = "賣權" then
      let price := bs_put_price S2 K2 T_years r sigma
      let intrinsic := max 0 (K2 - S2)
      some (price, intrinsic, max 0 (price - intrinsic))
    else none

/-- Intrinsic value over ℝ, as the spec states it (glossary):
`max(0, spot − strike)` for a call, `max(0, strike − spot)` for a put. -/
noncomputable def intrinsic_spec_real (optType : String) (strike spot : ℝ) : ℝ :=
  if optType = "買權" then max 0 (spot - strike)
  else if optType = "賣權" then max 0 (strike - spot)
  else 0

/-- `d1` as the spec's closed form states it (with exact log and sqrt). -/
noncomputable def spec_d1 (S K T_years r sigma : ℝ) : ℝ :=
  (Real.log (S / K) + (r + sigma ^ 2 / 2) * T_years) / (sigma * Real.sqrt T_years)

/-- `d2 = d1 − sigma·√T` as the spec's closed form states it. -/
noncomputable def spec_d2 (S K T_years r sigma : ℝ) : ℝ :=
  spec_d1 S K T_years r sigma - sigma * Real.sqrt T_years

/-- The closed-form Black-Scholes-Merton price exactly as claimed:
`S·N(d1) − K·e^(−rT)·N(d2)` for a call and
`K·e^(−rT)·N(−d2) − S·N(−d1)` for a put. -/
noncomputable def bsm_price_spec (S K T_years r sigma : ℝ) (optType : String) : ℝ :=
  if optType = "買權" then
    S * normalCdf (spec_d1 S K T_years r sigma) -
      K * Real.exp (-r * T_years) * normalCdf (spec_d2 S K T_years r sigma)
  else
    K * Real.exp (-r * T_years) * normalCdf (-spec_d2 S K T_years r sigma) -
      S * normalCdf (-spec_d1 S K T_years r sigma)

/-- Evaluation of the degenerate (near-expiry / zero-volatility) branch. -/
lemma bs_degenerate_eq (S K T_years r sigma : ℝ) (optType : String)
    (h : T_years ≤ 1 / 1000000 ∨ sigma ≤ 1 / 1000000) :
    black_scholes_model S K T_years r sigma optType =
      some (intrinsic_spec_real optType K S, intrinsic_spec_real optType K S, 0) := by
  rw [black_scholes_model, if_pos h]
  rfl

/-- Evaluation of the main branch for a call. -/
lemma bs_call_main_eq (S K T_years r sigma : ℝ)
    (hb : ¬(T_years ≤ 1 / 1000000 ∨ sigma ≤ 1 / 1000000)) :
    black_scholes_model S K T_years r sigma "買權" =
      some (bs_call_price (max (1 / 1000000) S) (max (1 / 1000000) K) T_years r sigma,
        max 0 (max (1 / 1000000) S - max (1 / 1000000) K),
        max 0 (bs_call_price (max (1 / 1000000) S) (max (1 / 1000000) K) T_years r sigma -
          max 0 (max (1 / 1000000) S - max (1 / 1000000) K))) := by
  rw [black_scholes_model, if_neg hb]
  rfl

/-- Evaluation of the main branch for a put. -/
lemma bs_put_main_eq (S K T_years r sigma : ℝ)
    (hb : ¬(T_years ≤ 1 / 1000000 ∨ sigma ≤ 1 / 1000000)) :
    black_scholes_model S K T_years r sigma "賣權" =
      some (bs_put_price (max (1 / 1000000) S) (max (1 / 1000000) K) T_years r sigma,
        max 0 (max (1 / 1000000) K - max (1 / 1000000) S),
        max 0 (bs_put_price (max (1 / 1000000) S) (max (1 / 1000000) K) T_years r sigma -
          max 0 (max (1 / 1000000) K - max (1 / 1000000) S))) := by
  rw [black_scholes_model, if_neg hb]
  rfl

/-- The Gaussian density `e^{-t²/2}` is integrable on the line. -/
lemma gauss_integrable : MeasureTheory.Integrable (fun t : ℝ => Real.exp (-(t ^ 2) / 2)) := by
  have he : (fun t : ℝ => Real.exp (-(t ^ 2) / 2)) =
      fun t : ℝ => Real.exp (-(1 / 2) * t ^ 2) := by
    funext t
    congr 1
    ring
  rw [he]
  exact integrable_exp_neg_mul_sq (by norm_num)

/-- The modelled normal CDF is strictly monotone. -/
lemma normalCdf_strictMono {a b : ℝ} (hab : a < b) : normalCdf a < normalCdf b := by
  have hsub : (∫ t in Set.Iic b, Real.exp (-(t ^ 2) / 2)) -
      ∫ t in Set.Iic a, Real.exp (-(t ^ 2) / 2) = ∫ t in a..b, Real.exp (-(t ^ 2) / 2) :=
    intervalIntegral.integral_Iic_sub_Iic gauss_integrable.integrableOn
      gauss_integrable.integrableOn
  have hpos : 0 < ∫ t in a..b, Real.exp (-(t ^ 2) / 2) :=
    intervalIntegral.intervalIntegral_pos_of_pos gauss_integrable.intervalIntegrable
      (fun x => Real.exp_pos _) hab
  have hlt : (∫ t in Set.Iic a, Real.exp (-(t ^ 2) / 2)) <
      ∫ t in Set.Iic b, Real.exp (-(t ^ 2) / 2) := by linarith
  have hden : 0 < Real.sqrt (2 * Real.pi) := Real.sqrt_pos.mpr (by positivity)
  exact (div_lt_div_iff_of_pos_right hden).mpr hlt

/-- C2 (amended): when the spot and strike are at least `1e-6` (so the
clamps of lines 159-160 are inactive), the spot is at least `1e-10` times
the strike (so `safe_log` computes the exact logarithm), and `T` and
`sigma` exceed the `1e-6` threshold, the price returned by
`black_scholes_model` is the positive part `max(0, ·)` of the closed-form
Black-Scholes-Merton price. -/
theorem C2_bs_price_clamped (S K T_years r sigma : ℝ) (optType : String)
    (hS : 1 / 1000000 ≤ S) (hK : 1 / 1000000 ≤ K)
    (hSK : 1 / 10 ^ 10 * K ≤ S)
    (hT : 1 / 1000000 < T_years) (hsig : 1 / 1000000 < sigma)
    (hopt : optType = "買權" ∨ optType = "賣權") :
    (black_scholes_model S K T_years r sigma optType).map Prod.fst =
      some (max 0 (bsm_price_spec S K T_years r sigma optType)) := by
  have hb : ¬(T_years ≤ 1 / 1000000 ∨ sigma ≤ 1 / 1000000) :=
    not_or.mpr ⟨not_le.mpr hT, not_le.mpr hsig⟩
  have hKpos : (0 : ℝ) < K := lt_of_lt_of_le (by norm_num) hK
  have hlog : safe_log (S / K) = Real.log (S / K) := by
    rw [safe_log, max_eq_left ((le_div_iff₀ hKpos).mpr (by linarith))]
  have hsqrt : safe_sqrt T_years = Real.sqrt T_years := by
    rw [safe_sqrt, max_eq_left (by linarith : 1 / 10 ^ 10 ≤ T_years)]
  have hd1 : bs_d1 S K T_years r sigma = spec_d1 S K T_years r sigma := by
    rw [bs_d1, spec_d1, hlog, hsqrt]
    ring_nf
  have hd2 : bs_d2 S K T_years r sigma = spec_d2 S K T_years r sigma := by
    rw [bs_d2, spec_d2, hd1, hsqrt]
  have hS2 : max (1 / 1000000) S = S := max_eq_right hS
  have hK2 : max (1 / 1000000) K = K := max_eq_right hK
  rcases hopt with ho | ho <;> subst ho
  · rw [bs_call_main_eq S K T_years r sigma hb, Option.map_some', hS2, hK2,
      bs_call_price, bsm_price_spec, if_pos rfl, hd1, hd2]
  · rw [bs_put_main_eq S K T_years r sigma hb, Option.map_some', hS2, hK2,
      bs_put_price, bsm_price_spec, if_neg (by decide), hd1, hd2]

/-- C2 witness: at-the-money call with S = K = 1, T = 1, r = 0, σ = 1. -/
theorem C2_bs_price_clamped_witness :
    (black_scholes_model 1 1 1 0 1 "買權").map Prod.fst =
      some (max 0 (bsm_price_spec 1 1 1 0 1 "買權")) :=
  C2_bs_price_clamped 1 1 1 0 1 "買權" (by norm_num) (by norm_num) (by norm_num)
    (by norm_num) (by norm_num) (Or.inl rfl)

/-- C2 counterexample: at S = K = 1e-7 (below the code's 1e-6 clamp, with
T = 1, r = 0, σ = 1) the code prices the clamped spot/strike 1e-6 and
returns a value ten times the claimed closed-form price, so the price
returned does not equal the closed form for every positive spot and
strike. -/
theorem C2_bs_price_counterexample :
    (black_scholes_model (1 / 10 ^ 7) (1 / 10 ^ 7) 1 0 1 "買權").map Prod.fst ≠
      some (bsm_price_spec (1 / 10 ^ 7) (1 / 10 ^ 7) 1 0 1 "買權") := by
  have hb : ¬((1 : ℝ) ≤ 1 / 1000000 ∨ (1 : ℝ) ≤ 1 / 1000000) := by norm_num
  have hmax : max (1 / 1000000 : ℝ) (1 / 10 ^ 7) = 1 / 1000000 :=
    max_eq_left (by norm_num)
  have hd1c : bs_d1 (1 / 1000000 : ℝ) (1 / 1000000) 1 0 1 = 1 / 2 := by
    rw [bs_d1, show ((1 : ℝ) / 1000000) / (1 / 1000000) = 1 by norm_num,
      safe_log, max_eq_left (by norm_num : (1 : ℝ) / 10 ^ 10 ≤ 1), Real.log_one,
      safe_sqrt, max_eq_left (by norm_num : (1 : ℝ) / 10 ^ 10 ≤ 1), Real.sqrt_one]
    norm_num
  have hd2c : bs_d2 (1 / 1000000 : ℝ) (1 / 1000000) 1 0 1 = -(1 / 2) := by
    rw [bs_d2, hd1c, safe_sqrt, max_eq_left (by norm_num : (1 : ℝ) / 10 ^ 10 ≤ 1),
      Real.sqrt_one]
    norm_num
  have hs1 : spec_d1 (1 / 10 ^ 7 : ℝ) (1 / 10 ^ 7) 1 0 1 = 1 / 2 := by
    rw [spec_d1, show ((1 : ℝ) / 10 ^ 7) / (1 / 10 ^ 7) = 1 by norm_num, Real.log_one,
      Real.sqrt_one]
    norm_num
  have hs2 : spec_d2 (1 / 10 ^ 7 : ℝ) (1 / 10 ^ 7) 1 0 1 = -(1 / 2) := by
    rw [spec_d2, hs1, Real.sqrt_one]
    norm_num
  have hexp : Real.exp (-(0 : ℝ) * 1) = 1 := by
    rw [show (-(0 : ℝ) * 1) = 0 by ring, Real.exp_zero]
  have hxy : normalCdf (-(1 / 2)) < normalCdf (1 / 2) := normalCdf_strictMono (by norm_num)
  rw [bs_call_main_eq _ _ _ _ _ hb, Option.map_some', hmax, bs_call_price, hd1c, hd2c,
    bsm_price_spec, if_pos rfl, hs1, hs2, hexp]
  simp only [ne_eq, Option.some.injEq]
  intro h
  rw [max_eq_right (by nlinarith)] at h
  nlinarith [hxy]

/-- C4 (amended): the settlement payoff of an option row uses exactly the
intrinsic value `max(0, price − strike)` for a call and
`max(0, strike − price)` for a put, for every price; the Black-Scholes
table's intrinsic output equals the same formula whenever the spot and
strike are at least `1e-6` (below that, the main branch of the code first
clamps them up to `1e-6`). -/
theorem C4_intrinsic_value :
    (∀ (row : Row) (price e k : ℚ), row.prod = "選擇權" → row.entry = some e →
      row.strike = some k → (row.opt_type = "買權" ∨ row.opt_type = "賣權") →
      profit_for_row_at_price row price =
        (if row.direction = "買進" then
          (intrinsic_spec row.opt_type k price - e) * row.lots * MULTIPLIER_OPTION
        else
          (e - intrinsic_spec row.opt_type k price) * row.lots * MULTIPLIER_OPTION)) ∧
    (∀ (S K T_years r sigma : ℝ) (optType : String), (1 : ℝ) / 1000000 ≤ S →
      (1 : ℝ) / 1000000 ≤ K → (optType = "買權" ∨ optType = "賣權") →
      (black_scholes_model S K T_years r sigma optType).map (fun out => out.2.1) =
        some (intrinsic_spec_real optType K S)) := by
  constructor
  · intro row price e k hp hentry hk hopt
    rcases hopt with ho | ho <;>
      by_cases hd : row.direction = "買進" <;>
      simp [profit_for_row_at_price, intrinsic_spec, hp, hd, ho, hentry, hk]
  · intro S K T_years r sigma optType hS hK hopt
    by_cases hb : T_years ≤ 1 / 1000000 ∨ sigma ≤ 1 / 1000000
    · rw [bs_degenerate_eq S K T_years r sigma optType hb, Option.map_some']
    · rcases hopt with ho | ho <;> subst ho
      · rw [bs_call_main_eq S K T_years r sigma hb, Option.map_some',
          max_eq_right hS, max_eq_right hK, intrinsic_spec_real, if_pos rfl]
      · rw [bs_put_main_eq S K T_years r sigma hb, Option.map_some',
          max_eq_right hS, max_eq_right hK, intrinsic_spec_real,
          if_neg (by decide), if_pos rfl]

/-- C4 witness: an in-the-money put at S = 2, K = 3 in the main branch. -/
theorem C4_intrinsic_value_witness :
    (black_scholes_model 2 3 1 0 1 "賣權").map (fun out => out.2.1) =
      some (intrinsic_spec_real "賣權" 3 2) :=
  C4_intrinsic_value.2 2 3 1 0 1 "賣權" (by norm_num) (by norm_num) (Or.inr rfl)

/-- C4 counterexample: at spot 0 (with T = 1, r = 0, σ = 1, strike 1) the
main branch clamps the spot up to 1e-6 first, so the put intrinsic in the
Black-Scholes table is `max(0, 1 − 1e-6) = 0.999999`, not
`max(0, strike − spot) = 1`: the claim fails for arbitrary spots. -/
theorem C4_intrinsic_value_counterexample :
    (black_scholes_model 0 1 1 0 1 "賣權").map (fun out => out.2.1) ≠
      some (max 0 ((1 : ℝ) - 0)) := by
  rw [bs_put_main_eq 0 1 1 0 1 (by norm_num), Option.map_some',
    max_eq_right (by norm_num : (1 : ℝ) / 1000000 ≤ 1),
    max_eq_left (by norm_num : (0 : ℝ) ≤ 1 / 1000000),
    max_eq_right (by norm_num : (0 : ℝ) ≤ 1 - 1 / 1000000)]
  simp only [ne_eq, Option.some.injEq]
  intro h
  rw [max_eq_right (by norm_num : (0 : ℝ) ≤ 1 - 0)] at h
  norm_num at h

/-- C8: whenever `T ≤ 1e-6` or `σ ≤ 1e-6`, `black_scholes_model` returns
the triple (intrinsic, intrinsic, 0), where the intrinsic value is
`max(0, S − K)` for 買權, `max(0, K − S)` for 賣權 and 0 for any other
option type. -/
theorem C8_degenerate_branch (S K T_years r sigma : ℝ) (optType : String)
    (h : T_years ≤ 1 / 1000000 ∨ sigma ≤ 1 / 1000000) :
    black_scholes_model S K T_years r sigma optType =
      some (intrinsic_spec_real optType K S, intrinsic_spec_real optType K S, 0) ∧
    (optType = "買權" → intrinsic_spec_real optType K S = max 0 (S - K)) ∧
    (optType = "賣權" → intrinsic_spec_real optType K S = max 0 (K - S)) ∧
    (optType ≠ "買權" → optType ≠ "賣權" → intrinsic_spec_real optType K S = 0) := by
  refine ⟨bs_degenerate_eq S K T_years r sigma optType h, ?_, ?_, ?_⟩
  · intro ho
    rw [intrinsic_spec_real, if_pos ho]
  · intro ho
    subst ho
    rw [intrinsic_spec_real, if_neg (by decide), if_pos rfl]
  · intro h1 h2
    rw [intrinsic_spec_real, if_neg h1, if_neg h2]

/-- C8 witness: a deep in-the-money call at expiry (T = 0) collapses to
its intrinsic value with zero time value. -/
theorem C8_degenerate_branch_witness :
    black_scholes_model 3 1 0 0 1 "買權" = some (2, 2, 0) := by
  have h := (C8_degenerate_branch 3 1 0 0 1 "買權" (Or.inl (by norm_num))).1
  rw [h, intrinsic_spec_real]
  norm_num

/-- C9: every triple actually returned by `black_scholes_model` has a
non-negative price, intrinsic value and time value, and the time value
equals `max(0, price − intrinsic)`. -/
theorem C9_outputs_nonneg (S K T_years r sigma : ℝ) (optType : String) (p i tv : ℝ)
    (h : black_scholes_model S K T_years r sigma optType = some (p, i, tv)) :
    0 ≤ p ∧ 0 ≤ i ∧ 0 ≤ tv ∧ tv = max 0 (p - i) := by
  rw [black_scholes_model] at h
  split at h
  · simp only [Option.some.injEq, Prod.mk.injEq] at h
    obtain ⟨hp, hi, htv⟩ := h
    subst hp hi htv
    refine ⟨?_, ?_, le_refl 0, by simp⟩ <;> (split_ifs <;> simp [le_max_left])
  · split at h
    · simp only [Option.some.injEq, Prod.mk.injEq] at h
      obtain ⟨hp, hi, htv⟩ := h
      subst hp hi htv
      exact ⟨le_max_left 0 _, le_max_left 0 _, le_max_left 0 _, by rw [bs_call_price]⟩
    · split at h
      · simp only [Option.some.injEq, Prod.mk.injEq] at h
        obtain ⟨hp, hi, htv⟩ := h
        subst hp hi htv
        exact ⟨le_max_left 0 _, le_max_left 0 _, le_max_left 0 _, by rw [bs_put_price]⟩
      · exact absurd h (by simp)

/-- C9 witness: the triple returned at S = 3, K = 1, T = 0 for a call is
(2, 2, 0), which satisfies all the non-negativity conditions. -/
theorem C9_outputs_nonneg_witness :
    (0 : ℝ) ≤ 2 ∧ (0 : ℝ) ≤ 2 ∧ (0 : ℝ) ≤ 0 ∧ (0 : ℝ) = max 0 (2 - 2) := by
  have hbs : black_scholes_model 3 1 0 0 1 "買權" = some (2, 2, 0) := by
    rw [bs_degenerate_eq 3 1 0 0 1 "買權" (Or.inl (by norm_num)), intrinsic_spec_real]
    norm_num
  exact C9_outputs_nonneg 3 1 0 0 1 "買權" 2 2 0 hbs

end OpApp
